import Mathlib

/-!
Verification of the ech-tunnel multi-channel dispatch core.

This file gives a shallow embedding of the client connection pool
(src/pool.go), the frame emitters of the server demultiplexer
(src/server.go and src/proxy.go), the SOCKS5 UDP relay loop
(src/socks5.go) and the ECH TLS configuration (src/tcp_client.go),
and proves properties of the embedded operations.

Go strings and byte slices are modelled as lists of natural numbers
(one per byte / character code); Go maps are modelled as association
lists with overwrite-on-insert semantics; the fallibility of a
WebSocket write is modelled by a boolean oracle on the transport.
-/

/-- Bytes of a Go string or byte slice, one natural number per byte. -/
abbrev Bytes := List Nat

/-- Character codes of an ASCII string literal (for ASCII text these
are exactly the UTF-8 bytes Go would see). -/
def ascii (s : String) : Bytes := s.data.map Char.toNat

/-- The field separator byte of the wire protocol, ASCII for the vertical bar. -/
def bar : Nat := 124

/-- First split of a byte list at a separator byte: returns the part
before the first occurrence and the part after it, if there is one. -/
def splitOnFirst (sep : Nat) : Bytes → Option (Bytes × Bytes)
  | [] => none
  | b :: rest =>
    if b = sep then some ([], rest)
    else
      match splitOnFirst sep rest with
      | none => none
      | some (l, r) => some (b :: l, r)

/-- Embedding of Go strings.SplitN / bytes.SplitN with a single-byte
separator and a positive limit n: at most n parts, the last part being
the unsplit remainder. -/
def splitN (sep : Nat) (n : Nat) (s : Bytes) : List Bytes :=
  match n with
  | 0 => []
  | 1 => [s]
  | m + 2 =>
    match splitOnFirst sep s with
    | none => [s]
    | some (l, r) => l :: splitN sep (m + 1) r

/-- Embedding of Go strings.HasPrefix: first argument is the prefix. -/
def hasPrefixB : Bytes → Bytes → Bool
  | [], _ => true
  | _ :: _, [] => false
  | p :: ps, b :: bs => if p = b then hasPrefixB ps bs else false

/-- Lookup in an association list, modelling a Go map read. -/
def lookupA {κ α : Type} [DecidableEq κ] (k : κ) : List (κ × α) → Option α
  | [] => none
  | (k', v) :: rest => if k' = k then some v else lookupA k rest

/-- Deletion from an association list, modelling a Go map delete. -/
def eraseA {κ α : Type} [DecidableEq κ] (k : κ) (l : List (κ × α)) : List (κ × α) :=
  l.filter (fun p => if p.1 = k then false else true)

/-- Insertion into an association list, modelling a Go map assignment
(overwrites any previous entry for the key). -/
def insertA {κ α : Type} [DecidableEq κ] (k : κ) (v : α) (l : List (κ × α)) : List (κ × α) :=
  (k, v) :: eraseA k l

/-- WebSocket message kind: gorilla/websocket TextMessage or BinaryMessage. -/
inductive MsgType
  | text
  | binary
deriving DecidableEq

/-- One outbound WebSocket message: its kind and its bytes. -/
structure Frame where
  mt : MsgType
  payload : Bytes
deriving DecidableEq

/-- One live WebSocket transport of a channel.  The boolean records
whether the next WriteMessage on it succeeds (writes are fallible). -/
structure Transport where
  writeOk : Bool
deriving DecidableEq

/-- Pending connection info of an unbound session, pool.go connInfo values. -/
structure ConnInfo where
  targetAddr : Bytes
  firstFrameData : Bytes
deriving DecidableEq

/-- State of the client pool (the mutable fields of ECHPool in
src/pool.go).  TCP connections and UDP associations are opaque
numeric handles; closedConns records the handles on which Close was
called, as the observable effect of closing a local socket. -/
structure PoolState where
  wsConns : List (Option Transport)
  tcpMap : List (Bytes × Nat)
  udpMap : List (Bytes × Nat)
  channelMap : List (Bytes × Nat)
  connInfo : List (Bytes × ConnInfo)
  claimTimes : List (Bytes × List (Nat × Nat))
  connected : List (Bytes × List Bool)
  boundByChannel : List (Nat × Bytes)
  closedConns : List Nat
deriving DecidableEq

/-- Result of a pool send operation: the state after it, the channel
and frame written (if a write was attempted), and whether the Go
function returned a non-nil error. -/
structure SendOutcome where
  state : PoolState
  sent : Option (Nat × Frame)
  errored : Bool
deriving DecidableEq

/-- The claimTimes bookkeeping performed when a CLAIM_ACK wins, from
pool.go lines 343-352: the entry of the winning channel is removed and
the per-connection map is dropped when it becomes empty. -/
def claimTimesAfterBind (ct : List (Bytes × List (Nat × Nat))) (connID : Bytes)
    (channelID : Nat) : List (Bytes × List (Nat × Nat)) :=
  match lookupA connID ct with
  | none => ct
  | some chTimes =>
    match lookupA channelID chTimes with
    | none => ct
    | some _ =>
      let chTimes' := eraseA channelID chTimes
      if chTimes'.isEmpty then eraseA connID ct else insertA connID chTimes' ct

/-- Handler of a parsed CLAIM_ACK for connID arriving on channelID,
from pool.go lines 329-374.  emitOk tells whether the WriteMessage of
the TCP frame succeeds.  Returns the new state and the frame whose
write was attempted, if any. -/
def handleClaimAck (s : PoolState) (channelID : Nat) (connID : Bytes)
    (emitOk : Bool) : PoolState × Option Frame :=
  if (lookupA connID s.channelMap).isSome then (s, none)
  else
    match lookupA connID s.connInfo with
    | none => (s, none)
    | some info =>
      let s1 : PoolState :=
        { s with
          claimTimes := claimTimesAfterBind s.claimTimes connID channelID
          channelMap := insertA connID channelID s.channelMap
          boundByChannel := insertA channelID connID s.boundByChannel
          connInfo := eraseA connID s.connInfo }
      let f : Frame :=
        ⟨.text, ascii "TCP:" ++ connID ++ [bar] ++ info.targetAddr ++ [bar] ++ info.firstFrameData⟩
      if emitOk then (s1, some f)
      else
        let s2 : PoolState :=
          match lookupA connID s1.tcpMap with
          | some c =>
            { s1 with
              closedConns := s1.closedConns ++ [c]
              tcpMap := eraseA connID s1.tcpMap }
          | none => s1
        ({ s2 with
           channelMap := eraseA connID s2.channelMap
           boundByChannel := eraseA channelID s2.boundByChannel
           connInfo := eraseA connID s2.connInfo
           claimTimes := eraseA connID s2.claimTimes }, some f)

/-- Handler of a CLOSE:<id> text frame received on channelID, from
pool.go lines 388-399: close and drop the local socket, then delete
the session from channelMap, connInfo and claimTimes, and unbind the
receiving channel. -/
def handleCloseMsg (s : PoolState) (channelID : Nat) (id : Bytes) : PoolState :=
  let s1 : PoolState :=
    match lookupA id s.tcpMap with
    | some c =>
      { s with
        closedConns := s.closedConns ++ [c]
        tcpMap := eraseA id s.tcpMap }
    | none => s
  { s1 with
    channelMap := eraseA id s1.channelMap
    connInfo := eraseA id s1.connInfo
    claimTimes := eraseA id s1.claimTimes
    boundByChannel := eraseA channelID s1.boundByChannel }

/-- Handler of CONNECTED:/UDP_CONNECTED: frames, pool.go lines 303-316
and 375-385: a non-blocking send of true into the session's connected
channel (capacity one, so the signal is dropped when the buffer is full). -/
def signalConnected (s : PoolState) (connID : Bytes) : PoolState :=
  match lookupA connID s.connected with
  | none => s
  | some buf =>
    if buf.isEmpty then { s with connected := insertA connID [true] s.connected } else s

/-- Dispatch of one text message received on a channel, from the text
branch of handleChannel in pool.go (lines 300-401).  UDP_ERROR and
ERROR frames are only logged. -/
def handleTextMessage (s : PoolState) (channelID : Nat) (msg : Bytes)
    (emitOk : Bool) : PoolState × Option Frame :=
  if hasPrefixB (ascii "UDP_CONNECTED:") msg then
    (signalConnected s (msg.drop 14), none)
  else if hasPrefixB (ascii "UDP_ERROR:") msg then
    (s, none)
  else if hasPrefixB (ascii "CLAIM_ACK:") msg then
    match splitN bar 2 (msg.drop 10) with
    | [connID, _ch] => handleClaimAck s channelID connID emitOk
    | _ => (s, none)
  else if hasPrefixB (ascii "CONNECTED:") msg then
    (signalConnected s (msg.drop 10), none)
  else if hasPrefixB (ascii "ERROR:") msg then
    (s, none)
  else if hasPrefixB (ascii "CLOSE:") msg then
    (handleCloseMsg s channelID (msg.drop 6), none)
  else
    (s, none)

/-- The scan of RegisterAndClaim over the channel array (pool.go lines
88-101): on every channel whose transport is live, record a claim time
and send a CLAIM:<id>|<i> text frame.  Returns the recorded claim-time
entries and the frames written, tagged with their channel index. -/
def claimFanOut (connID : Bytes) : Nat → List (Option Transport) →
    List (Nat × Nat) × List (Nat × Frame)
  | _, [] => ([], [])
  | i, none :: rest => claimFanOut connID (i + 1) rest
  | i, some _ :: rest =>
    let (ts, fs) := claimFanOut connID (i + 1) rest
    ((i, 0) :: ts, (i, ⟨.text, ascii "CLAIM:" ++ connID ++ [bar] ++ ascii (Nat.repr i)⟩) :: fs)

/-- RegisterAndClaim from pool.go lines 76-102: record the local TCP
connection and its pending info, initialise the claim-time and
connected-signal entries, then fan out CLAIM frames on all live
channels. -/
def RegisterAndClaim (s : PoolState) (connID target firstFrame : Bytes)
    (tcpConn : Nat) : PoolState × List (Nat × Frame) :=
  let inner := (lookupA connID s.claimTimes).getD []
  let ts := (claimFanOut connID 0 s.wsConns).1
  let inner' := ts.foldl (fun m p => insertA p.1 p.2 m) inner
  let cn :=
    match lookupA connID s.connected with
    | none => insertA connID [] s.connected
    | some _ => s.connected
  ({ s with
     tcpMap := insertA connID tcpConn s.tcpMap
     connInfo := insertA connID ⟨target, firstFrame⟩ s.connInfo
     claimTimes := insertA connID inner' s.claimTimes
     connected := cn }, (claimFanOut connID 0 s.wsConns).2)

/-- The channel-selection loop of SendUDPConnect (pool.go lines
119-125): the first channel, scanning from index 0, whose transport is
non-nil. -/
def findFirstLive : List (Option Transport) → Option (Nat × Transport)
  | [] => none
  | some t :: _ => some (0, t)
  | none :: rest => (findFirstLive rest).map (fun p => (p.1 + 1, p.2))

/-- SendUDPConnect from pool.go lines 115-143: pick the first live
channel, record the channel binding, then write UDP_CONNECT:<id>|<target>
as a text frame; the Go function returns the WriteMessage error. -/
def SendUDPConnect (s : PoolState) (connID target : Bytes) : SendOutcome :=
  match findFirstLive s.wsConns with
  | none => ⟨s, none, true⟩
  | some (chID, t) =>
    let s1 : PoolState :=
      { s with
        channelMap := insertA connID chID s.channelMap
        boundByChannel := insertA chID connID s.boundByChannel }
    ⟨s1, some (chID, ⟨.text, ascii "UDP_CONNECT:" ++ connID ++ [bar] ++ target⟩), !t.writeOk⟩

/-- SendUDPData from pool.go lines 146-165: route to the session's
bound channel and write UDP_DATA:<id>|<data> as a binary frame; error
when the session has no live bound channel. -/
def SendUDPData (s : PoolState) (connID : Bytes) (data : Bytes) : SendOutcome :=
  match lookupA connID s.channelMap with
  | none => ⟨s, none, true⟩
  | some chID =>
    match s.wsConns[chID]? with
    | some (some t) =>
      ⟨s, some (chID, ⟨.binary, ascii "UDP_DATA:" ++ connID ++ [bar] ++ data⟩), !t.writeOk⟩
    | _ => ⟨s, none, true⟩

/-- SendUDPClose from pool.go lines 168-193: a silent no-op when the
session has no live bound channel; otherwise write UDP_CLOSE:<id> as a
text frame and drop the channel binding and the UDP association. -/
def SendUDPClose (s : PoolState) (connID : Bytes) : SendOutcome :=
  match lookupA connID s.channelMap with
  | none => ⟨s, none, false⟩
  | some chID =>
    match s.wsConns[chID]? with
    | some (some t) =>
      let s1 : PoolState :=
        { s with
          channelMap := eraseA connID s.channelMap
          boundByChannel := eraseA chID s.boundByChannel
          udpMap := eraseA connID s.udpMap }
      ⟨s1, some (chID, ⟨.text, ascii "UDP_CLOSE:" ++ connID⟩), !t.writeOk⟩
    | _ => ⟨s, none, false⟩

/-- SendData from pool.go lines 421-436: route to the session's bound
channel and write DATA:<id>|<data> — as a TEXT frame in the source —
erroring when the session has no live bound channel. -/
def SendData (s : PoolState) (connID : Bytes) (b : Bytes) : SendOutcome :=
  match lookupA connID s.channelMap with
  | none => ⟨s, none, true⟩
  | some chID =>
    match s.wsConns[chID]? with
    | some (some t) =>
      ⟨s, some (chID, ⟨.text, ascii "DATA:" ++ connID ++ [bar] ++ b⟩), !t.writeOk⟩
    | _ => ⟨s, none, true⟩

/-- SendClose from pool.go lines 439-454: a silent no-op when the
session has no live bound channel; otherwise write CLOSE:<id> as a
text frame. -/
def SendClose (s : PoolState) (connID : Bytes) : SendOutcome :=
  match lookupA connID s.channelMap with
  | none => ⟨s, none, false⟩
  | some chID =>
    match s.wsConns[chID]? with
    | some (some t) => ⟨s, some (chID, ⟨.text, ascii "CLOSE:" ++ connID⟩), !t.writeOk⟩
    | _ => ⟨s, none, false⟩

/-- Outcome of WaitConnected: the nil-channel early return, a received
signal, or an elapsed timeout. -/
inductive WaitOutcome
  | nilChan
  | received
  | timedOut
deriving DecidableEq

/-- WaitConnected from pool.go lines 196-209.  The registry is read
for the session's connected channel; a missing channel returns at
once.  Otherwise a buffered signal, or one arriving before the timeout
(signalDuringWait), yields a successful receive; else the timeout fires. -/
def WaitConnected (s : PoolState) (connID : Bytes) (signalDuringWait : Bool) : WaitOutcome :=
  match lookupA connID s.connected with
  | none => .nilChan
  | some buf =>
    if buf.isEmpty then (if signalDuringWait then .received else .timedOut) else .received

/-- The boolean WaitConnected returns for each outcome. -/
def waitResult : WaitOutcome → Bool
  | .received => true
  | _ => false

/-- Whether the call blocked until the full timeout elapsed. -/
def waitedFullTimeout : WaitOutcome → Bool
  | .timedOut => true
  | _ => false

/-- Client parser of a binary DATA frame, pool.go lines 259-264:
length and prefix check, then SplitN on the first bar only. -/
def clientParseData (msg : Bytes) : Option (Bytes × Bytes) :=
  if 5 < msg.length ∧ msg.take 5 = ascii "DATA:" then
    match splitN bar 2 (msg.drop 5) with
    | [id, payload] => some (id, payload)
    | _ => none
  else none

/-- Client parser of a binary UDP_DATA frame, pool.go lines 241-254:
length and prefix check, then SplitN into three parts, the last part
being the opaque payload. -/
def clientParseUDPData (msg : Bytes) : Option (Bytes × Bytes × Bytes) :=
  if 9 < msg.length ∧ msg.take 9 = ascii "UDP_DATA:" then
    match splitN bar 3 (msg.drop 9) with
    | [id, addr, payload] => some (id, addr, payload)
    | _ => none
  else none

/-- Server parser of a binary DATA frame, server.go lines 214-219 and
proxy.go lines 705-710: prefix check then SplitN on the first bar only. -/
def serverParseData (msg : Bytes) : Option (Bytes × Bytes) :=
  if 5 < msg.length ∧ msg.take 5 = ascii "DATA:" then
    match splitN bar 2 (msg.drop 5) with
    | [id, payload] => some (id, payload)
    | _ => none
  else none

/-- Server parser of a binary UDP_DATA frame, server.go lines 189-194
and proxy.go lines 680-685: prefix check then SplitN on the first bar. -/
def serverParseUDPData (msg : Bytes) : Option (Bytes × Bytes) :=
  if 9 < msg.length ∧ msg.take 9 = ascii "UDP_DATA:" then
    match splitN bar 2 (msg.drop 9) with
    | [id, payload] => some (id, payload)
    | _ => none
  else none

/-- The DATA frame emitted by the read pump of handleTCPConnection in
proxy.go (line 968): append the chunk read from the origin socket to
the ASCII header DATA:<id>| and send as one binary message. -/
def proxyPumpFrame (connID : Bytes) (chunk : Bytes) : Frame :=
  ⟨.binary, ascii "DATA:" ++ connID ++ [bar] ++ chunk⟩

/-- The DATA frame emitted by the read pump of handleTCPConnection in
server.go (lines 583-598): the header DATA:<id>|<seq>| carries a
decimal sequence number, and the chunk follows; sent as one binary
message. -/
def serverPumpFrame (connID : Bytes) (seq : Nat) (chunk : Bytes) : Frame :=
  ⟨.binary,
    (ascii "DATA:" ++ connID ++ [bar] ++ ascii (Nat.repr seq) ++ [bar]) ++ chunk⟩

/-- The UDP_DATA frame emitted by the server UDP receive pump
(server.go lines 302-308, proxy.go lines 793-799): header
UDP_DATA:<id>|<host:port>| followed by the datagram bytes, as one
binary message. -/
def serverUDPPumpFrame (connID : Bytes) (hostport : Bytes) (chunk : Bytes) : Frame :=
  ⟨.binary, ascii "UDP_DATA:" ++ connID ++ [bar] ++ hostport ++ [bar] ++ chunk⟩

/-- State of one SOCKS5 UDP relay loop: the latched client address, if
any (socks5.go UDPAssociation.clientUDPAddr, compared by its string
form). -/
structure RelayState where
  clientUDPAddr : Option String
deriving DecidableEq

/-- One iteration of handleUDPRelay (socks5.go lines 424-458) on a
datagram from srcAddr: the first datagram latches the client address;
later datagrams from any other address are dropped; accepted datagrams
are handed to handleUDPPacket.  Returns the new state and the
forwarded datagram, if any. -/
def relayStep (s : RelayState) (srcAddr : String) (pkt : Bytes) :
    RelayState × Option (String × Bytes) :=
  match s.clientUDPAddr with
  | none => (⟨some srcAddr⟩, some (srcAddr, pkt))
  | some a => if a = srcAddr then (s, some (srcAddr, pkt)) else (s, none)

/-- The relay loop run over a list of incoming datagrams, collecting
the datagrams forwarded into the tunnel. -/
def relayRun (s : RelayState) : List (String × Bytes) → RelayState × List (String × Bytes)
  | [] => (s, [])
  | (src, pkt) :: rest =>
    ((relayRun (relayStep s src pkt).1 rest).1,
     match (relayStep s src pkt).2 with
     | some o => o :: (relayRun (relayStep s src pkt).1 rest).2
     | none => (relayRun (relayStep s src pkt).1 rest).2)

/-- Model of the Go tls.ConnectionState fields relevant to ECH. -/
structure TLSConnState where
  serverName : Bytes
  echAccepted : Bool
deriving DecidableEq

/-- Model of the Go tls.Config fields set by buildTLSConfigWithECH. -/
structure TLSConfig where
  minVersion : Nat
  serverName : Bytes
  echConfigList : Bytes
  echRejectionVerify : TLSConnState → Except Bytes Unit
  systemRoots : Bool

/-- The error value returned by the rejection verifier installed in
tcp_client.go line 31 (the source message says the server rejected ECH
and fallback is forbidden). -/
def echRejectErr : Bytes := ascii "server rejected ECH (fallback forbidden)"

/-- The TLS configuration built on the success path of
buildTLSConfigWithECH (tcp_client.go lines 25-34): TLS 1.3 minimum
(Go constant 0x0304 = 772), the given server name and ECH list, and a
rejection verifier that fails unconditionally. -/
def mkECHTLSConfig (serverName echList : Bytes) : TLSConfig :=
  { minVersion := 772
    serverName := serverName
    echConfigList := echList
    echRejectionVerify := fun _ => .error echRejectErr
    systemRoots := true }

/-- buildTLSConfigWithECH from tcp_client.go lines 20-36: fails only
when the system certificate pool cannot be loaded. -/
def buildTLSConfigWithECH (serverName echList : Bytes) (systemPoolOk : Bool) :
    Except Bytes TLSConfig :=
  if systemPoolOk then .ok (mkECHTLSConfig serverName echList)
  else .error (ascii "loading system root certificates failed")

/-- Model of the Go crypto/tls handshake outcome with respect to ECH
(library semantics, not repository code): when the server honors ECH
the handshake proceeds normally; when it does not, crypto/tls invokes
EncryptedClientHelloRejectionVerify and the handshake succeeds only if
that verifier returns nil. -/
def echHandshakeSucceeds (cfg : TLSConfig) (serverHonorsECH : Bool)
    (cs : TLSConnState) : Bool :=
  if serverHonorsECH then true
  else
    match cfg.echRejectionVerify cs with
    | .ok _ => true
    | .error _ => false

/-- Processing of a list of CLAIM_ACK events (channel, write-success)
for one session id, collecting the frame emitted by each event. -/
def runAcks (s : PoolState) (connID : Bytes) :
    List (Nat × Bool) → PoolState × List (Option Frame)
  | [] => (s, [])
  | (ch, ok) :: rest =>
    ((runAcks (handleClaimAck s ch connID ok).1 connID rest).1,
     (handleClaimAck s ch connID ok).2 ::
       (runAcks (handleClaimAck s ch connID ok).1 connID rest).2)

/-! ### Helper lemmas -/

theorem lookupA_insertA_self {κ α : Type} [DecidableEq κ] (k : κ) (v : α)
    (l : List (κ × α)) : lookupA k (insertA k v l) = some v := by
  simp [insertA, lookupA]

theorem lookupA_eraseA_self {κ α : Type} [DecidableEq κ] (k : κ)
    (l : List (κ × α)) : lookupA k (eraseA k l) = none := by
  induction l with
  | nil => rfl
  | cons p rest ih =>
    by_cases h : p.1 = k
    · simpa [eraseA, h] using ih
    · simpa [eraseA, lookupA, h] using ih

theorem splitOnFirst_append (sep : Nat) (id rest : Bytes) (h : sep ∉ id) :
    splitOnFirst sep (id ++ sep :: rest) = some (id, rest) := by
  induction id with
  | nil => simp [splitOnFirst]
  | cons b bs ih =>
    have hb : b ≠ sep := fun hbs => h (hbs ▸ List.mem_cons_self b bs)
    have hbs : sep ∉ bs := fun hm => h (List.mem_cons_of_mem b hm)
    simp [splitOnFirst, hb, ih hbs]

theorem splitN_two (sep : Nat) (id payload : Bytes) (h : sep ∉ id) :
    splitN sep 2 (id ++ sep :: payload) = [id, payload] := by
  simp [splitN, splitOnFirst_append sep id payload h]

theorem splitN_three (sep : Nat) (id addr payload : Bytes)
    (h1 : sep ∉ id) (h2 : sep ∉ addr) :
    splitN sep 3 (id ++ sep :: (addr ++ sep :: payload)) = [id, addr, payload] := by
  simp [splitN, splitOnFirst_append sep id _ h1, splitOnFirst_append sep addr payload h2]

theorem findFirstLive_spec (l : List (Option Transport)) (i : Nat) (t : Transport)
    (h : findFirstLive l = some (i, t)) :
    l[i]? = some (some t) ∧ ∀ j, j < i → l[j]? = some none := by
  induction l generalizing i t with
  | nil => simp [findFirstLive] at h
  | cons o rest ih =>
    match o with
    | some t' =>
      have h2 : (0, t') = (i, t) := Option.some.inj h
      have hi : i = 0 := by simpa using congrArg Prod.fst h2.symm
      have ht : t = t' := by simpa using congrArg Prod.snd h2.symm
      subst hi; subst ht
      exact ⟨by simp, fun j hj => absurd hj (Nat.not_lt_zero j)⟩
    | none =>
      have h' : (findFirstLive rest).map (fun p => (p.1 + 1, p.2)) = some (i, t) := h
      match hrest : findFirstLive rest with
      | none => rw [hrest] at h'; simp at h'
      | some p =>
        rw [hrest] at h'
        have h2 : (p.1 + 1, p.2) = (i, t) := Option.some.inj h'
        have hi : i = p.1 + 1 := by simpa using congrArg Prod.fst h2.symm
        have ht : t = p.2 := by simpa using congrArg Prod.snd h2.symm
        subst hi; subst ht
        obtain ⟨g1, g2⟩ := ih p.1 p.2 hrest
        refine ⟨by simpa using g1, ?_⟩
        intro j hj
        match j with
        | 0 => simp
        | j + 1 =>
          have : j < p.1 := by omega
          simpa using g2 j this

/-- A state in which a CLAIM_ACK for connID is a no-op: the session is
already bound. -/
theorem handleClaimAck_ignored_of_bound (s : PoolState) (ch ch' : Nat)
    (connID : Bytes) (ok : Bool) (h : lookupA connID s.channelMap = some ch) :
    handleClaimAck s ch' connID ok = (s, none) := by
  simp [handleClaimAck, h]

/-- A state in which a CLAIM_ACK for connID is a no-op: the session is
unbound but has no pending connection info. -/
theorem handleClaimAck_ignored_of_unregistered (s : PoolState) (ch' : Nat)
    (connID : Bytes) (ok : Bool)
    (hb : lookupA connID s.channelMap = none)
    (hi : lookupA connID s.connInfo = none) :
    handleClaimAck s ch' connID ok = (s, none) := by
  simp [handleClaimAck, hb, hi]

/-- Running any list of CLAIM_ACK events from a state that ignores
them all changes nothing and emits nothing. -/
theorem runAcks_ignored (s : PoolState) (connID : Bytes)
    (h : ∀ ch ok, handleClaimAck s ch connID ok = (s, none)) :
    ∀ l : List (Nat × Bool), runAcks s connID l = (s, l.map (fun _ => none)) := by
  intro l
  induction l with
  | nil => rfl
  | cons e rest ih =>
    simp [runAcks, h e.1 e.2, ih]

/-- After a CLAIM_ACK wins from a registered unbound state, every
further CLAIM_ACK for the same session is a strict no-op. -/
theorem handleClaimAck_after_first (s : PoolState) (ch : Nat) (connID : Bytes)
    (ok : Bool) (info : ConnInfo)
    (hreg : lookupA connID s.connInfo = some info)
    (hunb : lookupA connID s.channelMap = none) :
    ∀ ch' ok', handleClaimAck (handleClaimAck s ch connID ok).1 ch' connID ok' =
      ((handleClaimAck s ch connID ok).1, none) := by
  intro ch' ok'
  cases ok with
  | true =>
    apply handleClaimAck_ignored_of_bound _ ch
    simp [handleClaimAck, hreg, hunb, lookupA_insertA_self]
  | false =>
    apply handleClaimAck_ignored_of_unregistered
    · simp only [handleClaimAck, hreg, hunb]
      simp [lookupA_eraseA_self]
    · simp only [handleClaimAck, hreg, hunb]
      simp [lookupA_eraseA_self]

/-- The frames of the CLAIM fan-out are all text messages. -/
theorem claimFanOut_text (connID : Bytes) :
    ∀ (i : Nat) (l : List (Option Transport)) (p : Nat × Frame),
      p ∈ (claimFanOut connID i l).2 → p.2.mt = .text := by
  intro i l
  induction l generalizing i with
  | nil => intro p hp; simp [claimFanOut] at hp
  | cons o rest ih =>
    intro p hp
    match o with
    | none => exact ih (i + 1) p (by simpa [claimFanOut] using hp)
    | some t =>
      simp [claimFanOut] at hp
      rcases hp with hp | hp
      · rw [hp]
      · exact ih (i + 1) p hp

theorem clientParseData_framed (id payload : Bytes) (h : bar ∉ id) :
    clientParseData (ascii "DATA:" ++ (id ++ bar :: payload)) = some (id, payload) := by
  have hlen : (ascii "DATA:").length = 5 := rfl
  have htake : (ascii "DATA:" ++ (id ++ bar :: payload)).take 5 = ascii "DATA:" := by
    rw [← hlen, List.take_left]
  have hdrop : (ascii "DATA:" ++ (id ++ bar :: payload)).drop 5 = id ++ bar :: payload := by
    rw [← hlen, List.drop_left]
  have hl : 5 < (ascii "DATA:" ++ (id ++ bar :: payload)).length := by
    rw [List.length_append, hlen]
    simp
  simp only [clientParseData]
  rw [if_pos ⟨hl, htake⟩, hdrop, splitN_two bar id payload h]

theorem serverParseData_framed (id payload : Bytes) (h : bar ∉ id) :
    serverParseData (ascii "DATA:" ++ (id ++ bar :: payload)) = some (id, payload) := by
  have hlen : (ascii "DATA:").length = 5 := rfl
  have htake : (ascii "DATA:" ++ (id ++ bar :: payload)).take 5 = ascii "DATA:" := by
    rw [← hlen, List.take_left]
  have hdrop : (ascii "DATA:" ++ (id ++ bar :: payload)).drop 5 = id ++ bar :: payload := by
    rw [← hlen, List.drop_left]
  have hl : 5 < (ascii "DATA:" ++ (id ++ bar :: payload)).length := by
    rw [List.length_append, hlen]
    simp
  simp only [serverParseData]
  rw [if_pos ⟨hl, htake⟩, hdrop, splitN_two bar id payload h]

theorem clientParseUDPData_framed (id addr payload : Bytes)
    (h1 : bar ∉ id) (h2 : bar ∉ addr) :
    clientParseUDPData (ascii "UDP_DATA:" ++ (id ++ bar :: (addr ++ bar :: payload))) =
      some (id, addr, payload) := by
  have hlen : (ascii "UDP_DATA:").length = 9 := rfl
  have htake : (ascii "UDP_DATA:" ++ (id ++ bar :: (addr ++ bar :: payload))).take 9 =
      ascii "UDP_DATA:" := by
    rw [← hlen, List.take_left]
  have hdrop : (ascii "UDP_DATA:" ++ (id ++ bar :: (addr ++ bar :: payload))).drop 9 =
      id ++ bar :: (addr ++ bar :: payload) := by
    rw [← hlen, List.drop_left]
  have hl : 9 < (ascii "UDP_DATA:" ++ (id ++ bar :: (addr ++ bar :: payload))).length := by
    rw [List.length_append, hlen]
    simp
  simp only [clientParseUDPData]
  rw [if_pos ⟨hl, htake⟩, hdrop, splitN_three bar id addr payload h1 h2]

theorem serverParseUDPData_framed (id payload : Bytes) (h : bar ∉ id) :
    serverParseUDPData (ascii "UDP_DATA:" ++ (id ++ bar :: payload)) = some (id, payload) := by
  have hlen : (ascii "UDP_DATA:").length = 9 := rfl
  have htake : (ascii "UDP_DATA:" ++ (id ++ bar :: payload)).take 9 = ascii "UDP_DATA:" := by
    rw [← hlen, List.take_left]
  have hdrop : (ascii "UDP_DATA:" ++ (id ++ bar :: payload)).drop 9 = id ++ bar :: payload := by
    rw [← hlen, List.drop_left]
  have hl : 9 < (ascii "UDP_DATA:" ++ (id ++ bar :: payload)).length := by
    rw [List.length_append, hlen]
    simp
  simp only [serverParseUDPData]
  rw [if_pos ⟨hl, htake⟩, hdrop, splitN_two bar id payload h]

/-! ### Sample states used by witnesses and counterexamples -/

/-- A pool state with one registered, still unbound TCP session (id
bytes of the string a, local socket handle 5) and three live channels
with pending claims. -/
def poolA : PoolState :=
  { wsConns := [some ⟨true⟩, some ⟨true⟩, some ⟨true⟩]
    tcpMap := [(ascii "a", 5)]
    udpMap := []
    channelMap := []
    connInfo := [(ascii "a", ⟨ascii "t:1", ascii "hello"⟩)]
    claimTimes := [(ascii "a", [(0, 0), (1, 0), (2, 0)])]
    connected := [(ascii "a", [])]
    boundByChannel := []
    closedConns := [] }

/-- A pool state with one session bound to channel 0 and one live
channel whose writes succeed. -/
def poolB : PoolState :=
  { wsConns := [some ⟨true⟩]
    tcpMap := [(ascii "a", 7)]
    udpMap := []
    channelMap := [(ascii "a", 0)]
    connInfo := []
    claimTimes := []
    connected := [(ascii "a", [])]
    boundByChannel := [(0, ascii "a")]
    closedConns := [] }

/-- A pool state with a single live channel whose next write fails. -/
def poolC : PoolState :=
  { wsConns := [some ⟨false⟩]
    tcpMap := []
    udpMap := []
    channelMap := []
    connInfo := []
    claimTimes := []
    connected := []
    boundByChannel := []
    closedConns := [] }

/-- The empty pool state. -/
def poolE : PoolState :=
  { wsConns := []
    tcpMap := []
    udpMap := []
    channelMap := []
    connInfo := []
    claimTimes := []
    connected := []
    boundByChannel := []
    closedConns := [] }

/-! ### Claim theorems -/

/-- C1: for a TCP session id that is registered (pending connection
info present) and still unbound, among any sequence of CLAIM_ACK
events for that id the first one processed sets the session's bound
channel and triggers the TCP frame emission, and every later CLAIM_ACK
for the same id is ignored and changes no state. -/
theorem claimAck_exactly_one_bind (s : PoolState) (id : Bytes) (info : ConnInfo)
    (ch : Nat) (ok : Bool) (rest : List (Nat × Bool))
    (hreg : lookupA id s.connInfo = some info)
    (hunb : lookupA id s.channelMap = none) :
    (handleClaimAck s ch id ok).2.isSome = true ∧
    runAcks s id ((ch, ok) :: rest) =
      ((handleClaimAck s ch id ok).1,
       (handleClaimAck s ch id ok).2 :: rest.map (fun _ => none)) ∧
    (ok = true → lookupA id (handleClaimAck s ch id ok).1.channelMap = some ch) := by
  refine ⟨?_, ?_, ?_⟩
  · cases ok <;> simp [handleClaimAck, hreg, hunb]
  · have hign := handleClaimAck_after_first s ch id ok info hreg hunb
    have hrest := runAcks_ignored (handleClaimAck s ch id ok).1 id hign rest
    simp [runAcks, hrest]
  · intro hok
    subst hok
    simp [handleClaimAck, hreg, hunb, lookupA_insertA_self]

/-- Witness for C1 at a concrete registered unbound session with a
winning ACK on channel 1 followed by a losing ACK on channel 2. -/
theorem claimAck_exactly_one_bind_witness :
    (handleClaimAck poolA 1 (ascii "a") true).2.isSome = true ∧
    runAcks poolA (ascii "a") [(1, true), (2, true)] =
      ((handleClaimAck poolA 1 (ascii "a") true).1,
       (handleClaimAck poolA 1 (ascii "a") true).2 :: [(2, true)].map (fun _ => none)) ∧
    (true = true → lookupA (ascii "a") (handleClaimAck poolA 1 (ascii "a") true).1.channelMap =
      some 1) :=
  claimAck_exactly_one_bind poolA (ascii "a") ⟨ascii "t:1", ascii "hello"⟩ 1 true
    [(2, true)] (by decide) (by decide)

/-- C7: once a UDP association has latched a client address, a datagram
from any other source address is dropped without forwarding or state
change, and over any sequence of datagrams only those from the latched
address are forwarded while the association keeps running with the
same latched address. -/
theorem relayStep_keep (a : String) (s : RelayState) (h : s.clientUDPAddr = some a)
    (src : String) (pkt : Bytes) : (relayStep s src pkt).1 = s := by
  obtain ⟨addr⟩ := s
  simp only [RelayState.mk.injEq] at h
  subst h
  simp only [relayStep]
  split <;> rfl

theorem relayStep_drop (a : String) (s : RelayState) (h : s.clientUDPAddr = some a)
    (b : String) (pkt : Bytes) (hb : b ≠ a) : relayStep s b pkt = (s, none) := by
  obtain ⟨addr⟩ := s
  simp only [RelayState.mk.injEq] at h
  subst h
  simp only [relayStep]
  rw [if_neg (fun hab => hb hab.symm)]

theorem relayStep_out (a : String) (s : RelayState) (h : s.clientUDPAddr = some a)
    (src : String) (pkt : Bytes) :
    (relayStep s src pkt).2 = some (src, pkt) ∨ (relayStep s src pkt).2 = none := by
  obtain ⟨addr⟩ := s
  simp only [RelayState.mk.injEq] at h
  subst h
  simp only [relayStep]
  split
  · exact Or.inl rfl
  · exact Or.inr rfl

theorem relayRun_latched (a : String) (s : RelayState) (events : List (String × Bytes))
    (h : s.clientUDPAddr = some a) :
    (relayRun s events).1 = s ∧ ∀ e ∈ (relayRun s events).2, e.1 = a := by
  induction events generalizing s with
  | nil =>
    refine ⟨rfl, ?_⟩
    intro e he
    simp [relayRun] at he
  | cons ev rest ih =>
    obtain ⟨src, pkt⟩ := ev
    have hkeep := relayStep_keep a s h src pkt
    have hlat : (relayStep s src pkt).1.clientUDPAddr = some a := by rw [hkeep]; exact h
    obtain ⟨ih1, ih2⟩ := ih (relayStep s src pkt).1 hlat
    constructor
    · show (relayRun (relayStep s src pkt).1 rest).1 = s
      rw [ih1, hkeep]
    · intro e he
      by_cases hsrc : src = a
      · rcases relayStep_out a s h src pkt with hout | hout
        · have he' : e ∈ (src, pkt) ::
              (relayRun (relayStep s src pkt).1 rest).2 := by
            simpa only [relayRun, hout] using he
          rcases List.mem_cons.mp he' with he1 | he2
          · rw [he1, hsrc]
          · exact ih2 e he2
        · have he' : e ∈ (relayRun (relayStep s src pkt).1 rest).2 := by
            simpa only [relayRun, hout] using he
          exact ih2 e he'
      · have hdrop := relayStep_drop a s h src pkt hsrc
        have he' : e ∈ (relayRun (relayStep s src pkt).1 rest).2 := by
          simpa only [relayRun, hdrop] using he
        exact ih2 e he'

/-- C7: once a UDP association has latched a client address, a datagram
from any other source address is dropped without forwarding or state
change, and over any sequence of datagrams only those from the latched
address are forwarded while the association keeps running with the
same latched address. -/
theorem udp_relay_latched_source_only (a : String) (s : RelayState)
    (events : List (String × Bytes)) (h : s.clientUDPAddr = some a) :
    (∀ b pkt, b ≠ a → relayStep s b pkt = (s, none)) ∧
    (relayRun s events).1 = s ∧
    (∀ e ∈ (relayRun s events).2, e.1 = a) :=
  ⟨fun b pkt hb => relayStep_drop a s h b pkt hb,
   (relayRun_latched a s events h).1,
   (relayRun_latched a s events h).2⟩

/-- Witness for C7: with address A latched, a datagram from A is
forwarded and a datagram from B is dropped, the state unchanged. -/
theorem udp_relay_latched_source_only_witness :
    (∀ b pkt, b ≠ "A" → relayStep (⟨some "A"⟩ : RelayState) b pkt =
      ((⟨some "A"⟩ : RelayState), none)) ∧
    (relayRun ⟨some "A"⟩ [("A", [1]), ("B", [2])]).1 = (⟨some "A"⟩ : RelayState) ∧
    (∀ e ∈ (relayRun ⟨some "A"⟩ [("A", [1]), ("B", [2])]).2, e.1 = "A") :=
  udp_relay_latched_source_only "A" ⟨some "A"⟩ [("A", [1]), ("B", [2])] rfl

/-- C8: the ECH rejection verifier installed by buildTLSConfigWithECH
returns an error for every connection state, so whenever the server
does not honor ECH the handshake fails; there is no fallback path. -/
theorem ech_rejection_always_fails (serverName echList : Bytes) (cs : TLSConnState) :
    (mkECHTLSConfig serverName echList).echRejectionVerify cs = .error echRejectErr ∧
    echHandshakeSucceeds (mkECHTLSConfig serverName echList) false cs = false ∧
    buildTLSConfigWithECH serverName echList true = .ok (mkECHTLSConfig serverName echList) :=
  ⟨rfl, rfl, rfl⟩

/-- C10: WaitConnected for a session id that was never registered (no
connected-signal channel in the registry) returns false at once,
without waiting out the timeout. -/
theorem waitConnected_unregistered_immediate (s : PoolState) (id : Bytes) (sig : Bool)
    (h : lookupA id s.connected = none) :
    WaitConnected s id sig = .nilChan ∧
    waitResult (WaitConnected s id sig) = false ∧
    waitedFullTimeout (WaitConnected s id sig) = false := by
  simp [WaitConnected, h, waitResult, waitedFullTimeout]

/-- Witness for C10 at the empty pool state. -/
theorem waitConnected_unregistered_immediate_witness :
    WaitConnected poolE (ascii "a") true = .nilChan ∧
    waitResult (WaitConnected poolE (ascii "a") true) = false ∧
    waitedFullTimeout (WaitConnected poolE (ascii "a") true) = false :=
  waitConnected_unregistered_immediate poolE (ascii "a") true rfl

/-- Counterexample to C2 as stated: the read pump of server.go does
not emit DATA:<id>| directly followed by the chunk; at id x, first
chunk y it emits DATA:x|1|y, a sequence-number field between the id
and the payload. -/
theorem server_pump_seq_counterexample :
    (serverPumpFrame (ascii "x") 1 (ascii "y")).payload ≠
      ascii "DATA:" ++ ascii "x" ++ [bar] ++ ascii "y" := by
  decide

/-- C2 amended: the read pump of proxy.go emits exactly the binary
frame DATA:<id>| followed by the chunk, and the client parser recovers
the chunk byte for byte; the read pump of server.go inserts a decimal
sequence-number field between the id and the chunk, so the client
parser hands the local socket the sequence field and separator
prepended to the chunk. -/
theorem data_pump_frame_shape (id chunk : Bytes) (seq : Nat) (h : bar ∉ id) :
    proxyPumpFrame id chunk = ⟨.binary, ascii "DATA:" ++ id ++ [bar] ++ chunk⟩ ∧
    clientParseData (proxyPumpFrame id chunk).payload = some (id, chunk) ∧
    serverPumpFrame id seq chunk =
      ⟨.binary, ascii "DATA:" ++ id ++ [bar] ++ ascii (Nat.repr seq) ++ [bar] ++ chunk⟩ ∧
    clientParseData (serverPumpFrame id seq chunk).payload =
      some (id, ascii (Nat.repr seq) ++ bar :: chunk) := by
  refine ⟨rfl, ?_, by simp [serverPumpFrame], ?_⟩
  · have hassoc : (proxyPumpFrame id chunk).payload =
        ascii "DATA:" ++ (id ++ bar :: chunk) := by
      simp [proxyPumpFrame, List.append_assoc]
    rw [hassoc, clientParseData_framed id chunk h]
  · have hassoc : (serverPumpFrame id seq chunk).payload =
        ascii "DATA:" ++ (id ++ bar :: (ascii (Nat.repr seq) ++ bar :: chunk)) := by
      simp [serverPumpFrame, List.append_assoc]
    rw [hassoc, clientParseData_framed id (ascii (Nat.repr seq) ++ bar :: chunk) h]

/-- Witness for C2 amended at id x, sequence number 1, chunk y. -/
theorem data_pump_frame_shape_witness :
    proxyPumpFrame (ascii "x") (ascii "y") =
      ⟨.binary, ascii "DATA:" ++ ascii "x" ++ [bar] ++ ascii "y"⟩ ∧
    clientParseData (proxyPumpFrame (ascii "x") (ascii "y")).payload =
      some (ascii "x", ascii "y") ∧
    serverPumpFrame (ascii "x") 1 (ascii "y") =
      ⟨.binary, ascii "DATA:" ++ ascii "x" ++ [bar] ++ ascii (Nat.repr 1) ++ [bar] ++ ascii "y"⟩ ∧
    clientParseData (serverPumpFrame (ascii "x") 1 (ascii "y")).payload =
      some (ascii "x", ascii (Nat.repr 1) ++ bar :: ascii "y") :=
  data_pump_frame_shape (ascii "x") (ascii "y") 1 (by decide)

/-- C6: the DATA and UDP_DATA parsers split only on the leading field
separators, so for separator-free ids and addresses the payload handed
on is byte for byte the payload that was framed, even when it contains
the separator byte: the client parser recovers the chunk of a proxy.go
DATA frame and the payload of a server UDP_DATA frame, and the server
parsers recover the data framed by SendData and SendUDPData. -/
theorem frame_split_first_n (id addr payload : Bytes)
    (h1 : bar ∉ id) (h2 : bar ∉ addr) :
    clientParseData (proxyPumpFrame id payload).payload = some (id, payload) ∧
    clientParseUDPData (serverUDPPumpFrame id addr payload).payload =
      some (id, addr, payload) ∧
    (∀ (s : PoolState) (ch : Nat) (f : Frame),
      (SendData s id payload).sent = some (ch, f) →
      serverParseData f.payload = some (id, payload)) ∧
    (∀ (s : PoolState) (ch : Nat) (f : Frame),
      (SendUDPData s id payload).sent = some (ch, f) →
      serverParseUDPData f.payload = some (id, payload)) := by
  refine ⟨?_, ?_, ?_, ?_⟩
  · have hassoc : (proxyPumpFrame id payload).payload =
        ascii "DATA:" ++ (id ++ bar :: payload) := by
      simp [proxyPumpFrame, List.append_assoc]
    rw [hassoc, clientParseData_framed id payload h1]
  · have hassoc : (serverUDPPumpFrame id addr payload).payload =
        ascii "UDP_DATA:" ++ (id ++ bar :: (addr ++ bar :: payload)) := by
      simp [serverUDPPumpFrame, List.append_assoc]
    rw [hassoc, clientParseUDPData_framed id addr payload h1 h2]
  · intro s ch f hf
    have hfp : f.payload = ascii "DATA:" ++ (id ++ bar :: payload) := by
      simp only [SendData] at hf
      split at hf
      · exact Option.noConfusion hf
      · split at hf
        · have hef : Frame.mk .text (ascii "DATA:" ++ id ++ [bar] ++ payload) = f :=
            congrArg Prod.snd (Option.some.inj hf)
          rw [← hef]
          simp [List.append_assoc]
        · exact Option.noConfusion hf
    rw [hfp]
    exact serverParseData_framed id payload h1
  · intro s ch f hf
    have hfp : f.payload = ascii "UDP_DATA:" ++ (id ++ bar :: payload) := by
      simp only [SendUDPData] at hf
      split at hf
      · exact Option.noConfusion hf
      · split at hf
        · have hef : Frame.mk .binary (ascii "UDP_DATA:" ++ id ++ [bar] ++ payload) = f :=
            congrArg Prod.snd (Option.some.inj hf)
          rw [← hef]
          simp [List.append_assoc]
        · exact Option.noConfusion hf
    rw [hfp]
    exact serverParseUDPData_framed id payload h1

/-- Witness for C6 at id a, address h:1 and a payload that contains
the separator byte. -/
theorem frame_split_first_n_witness :
    clientParseData (proxyPumpFrame (ascii "a") [124, 98]).payload =
      some (ascii "a", [124, 98]) ∧
    clientParseUDPData (serverUDPPumpFrame (ascii "a") (ascii "h:1") [124, 98]).payload =
      some (ascii "a", ascii "h:1", [124, 98]) ∧
    serverParseData (Frame.mk .text
      (ascii "DATA:" ++ ascii "a" ++ [bar] ++ [124, 98])).payload =
      some (ascii "a", [124, 98]) ∧
    serverParseUDPData (Frame.mk .binary
      (ascii "UDP_DATA:" ++ ascii "a" ++ [bar] ++ [124, 98])).payload =
      some (ascii "a", [124, 98]) := by
  have h := frame_split_first_n (ascii "a") (ascii "h:1") [124, 98] (by decide) (by decide)
  exact ⟨h.1, h.2.1,
    h.2.2.1 poolB 0 (Frame.mk .text (ascii "DATA:" ++ ascii "a" ++ [bar] ++ [124, 98])) rfl,
    h.2.2.2 poolB 0 (Frame.mk .binary (ascii "UDP_DATA:" ++ ascii "a" ++ [bar] ++ [124, 98])) rfl⟩

/-- Counterexample to C3 as stated: at a bound session with a live
channel, SendData emits the DATA frame as a text message, not a binary
one. -/
theorem send_data_text_counterexample :
    (SendData poolB (ascii "a") [98]).sent.map (fun p => p.2.mt) = some MsgType.text ∧
    MsgType.text ≠ MsgType.binary := by
  decide

/-- C3 amended: UDP_DATA data frames are sent as binary messages and
the control frames CLAIM, TCP, CLOSE, UDP_CONNECT, UDP_CLOSE as text
messages, but DATA frames emitted by SendData are sent as text
messages, not binary ones. -/
theorem outbound_frame_kinds :
    (∀ (s : PoolState) (id b : Bytes) (ch : Nat) (f : Frame),
      (SendUDPData s id b).sent = some (ch, f) → f.mt = .binary) ∧
    (∀ (s : PoolState) (id b : Bytes) (ch : Nat) (f : Frame),
      (SendData s id b).sent = some (ch, f) → f.mt = .text) ∧
    (∀ (s : PoolState) (id t : Bytes) (ch : Nat) (f : Frame),
      (SendUDPConnect s id t).sent = some (ch, f) → f.mt = .text) ∧
    (∀ (s : PoolState) (id : Bytes) (ch : Nat) (f : Frame),
      (SendClose s id).sent = some (ch, f) → f.mt = .text) ∧
    (∀ (s : PoolState) (id : Bytes) (ch : Nat) (f : Frame),
      (SendUDPClose s id).sent = some (ch, f) → f.mt = .text) ∧
    (∀ (s : PoolState) (id tg ff : Bytes) (c : Nat),
      ∀ p ∈ (RegisterAndClaim s id tg ff c).2, p.2.mt = .text) ∧
    (∀ (s : PoolState) (ch : Nat) (id : Bytes) (ok : Bool) (f : Frame),
      (handleClaimAck s ch id ok).2 = some f → f.mt = .text) := by
  refine ⟨?_, ?_, ?_, ?_, ?_, ?_, ?_⟩
  · intro s id b ch f hf
    simp only [SendUDPData] at hf
    split at hf
    · exact Option.noConfusion hf
    · split at hf
      · exact (congrArg (fun p => p.2.mt) (Option.some.inj hf)).symm
      · exact Option.noConfusion hf
  · intro s id b ch f hf
    simp only [SendData] at hf
    split at hf
    · exact Option.noConfusion hf
    · split at hf
      · exact (congrArg (fun p => p.2.mt) (Option.some.inj hf)).symm
      · exact Option.noConfusion hf
  · intro s id t ch f hf
    simp only [SendUDPConnect] at hf
    split at hf
    · exact Option.noConfusion hf
    · exact (congrArg (fun p => p.2.mt) (Option.some.inj hf)).symm
  · intro s id ch f hf
    simp only [SendClose] at hf
    split at hf
    · exact Option.noConfusion hf
    · split at hf
      · exact (congrArg (fun p => p.2.mt) (Option.some.inj hf)).symm
      · exact Option.noConfusion hf
  · intro s id ch f hf
    simp only [SendUDPClose] at hf
    split at hf
    · exact Option.noConfusion hf
    · split at hf
      · exact (congrArg (fun p => p.2.mt) (Option.some.inj hf)).symm
      · exact Option.noConfusion hf
  · intro s id tg ff c p hp
    have hp2 : p ∈ (claimFanOut id 0 s.wsConns).2 := by
      simpa only [RegisterAndClaim] using hp
    exact claimFanOut_text id 0 s.wsConns p hp2
  · intro s ch id ok f hf
    simp only [handleClaimAck] at hf
    split at hf
    · exact Option.noConfusion hf
    · split at hf
      · exact Option.noConfusion hf
      · split at hf
        · rw [← Option.some.inj hf]
        · rw [← Option.some.inj hf]

/-- Witness for C3 amended: each sender applied at a concrete bound
state, with the concrete frame each emits. -/
theorem outbound_frame_kinds_witness :
    (Frame.mk .binary (ascii "UDP_DATA:" ++ ascii "a" ++ [bar] ++ [98])).mt = .binary ∧
    (Frame.mk .text (ascii "DATA:" ++ ascii "a" ++ [bar] ++ [98])).mt = .text ∧
    (Frame.mk .text (ascii "UDP_CONNECT:" ++ ascii "u" ++ [bar] ++ ascii "t:1")).mt = .text ∧
    (Frame.mk .text (ascii "CLOSE:" ++ ascii "a")).mt = .text ∧
    (Frame.mk .text (ascii "UDP_CLOSE:" ++ ascii "a")).mt = .text ∧
    (0, Frame.mk .text (ascii "CLAIM:" ++ ascii "a" ++ [bar] ++ ascii (Nat.repr 0))).2.mt =
      .text ∧
    (Frame.mk .text
      (ascii "TCP:" ++ ascii "a" ++ [bar] ++ ascii "t:1" ++ [bar] ++ ascii "hello")).mt =
      .text :=
  ⟨outbound_frame_kinds.1 poolB (ascii "a") [98] 0
      (Frame.mk .binary (ascii "UDP_DATA:" ++ ascii "a" ++ [bar] ++ [98])) rfl,
   outbound_frame_kinds.2.1 poolB (ascii "a") [98] 0
      (Frame.mk .text (ascii "DATA:" ++ ascii "a" ++ [bar] ++ [98])) rfl,
   outbound_frame_kinds.2.2.1 poolB (ascii "u") (ascii "t:1") 0
      (Frame.mk .text (ascii "UDP_CONNECT:" ++ ascii "u" ++ [bar] ++ ascii "t:1")) rfl,
   outbound_frame_kinds.2.2.2.1 poolB (ascii "a") 0
      (Frame.mk .text (ascii "CLOSE:" ++ ascii "a")) rfl,
   outbound_frame_kinds.2.2.2.2.1 poolB (ascii "a") 0
      (Frame.mk .text (ascii "UDP_CLOSE:" ++ ascii "a")) rfl,
   outbound_frame_kinds.2.2.2.2.2.1 poolB (ascii "a") (ascii "t:1") (ascii "hello") 9
      (0, Frame.mk .text (ascii "CLAIM:" ++ ascii "a" ++ [bar] ++ ascii (Nat.repr 0)))
      (by decide),
   outbound_frame_kinds.2.2.2.2.2.2 poolA 1 (ascii "a") true
      (Frame.mk .text
        (ascii "TCP:" ++ ascii "a" ++ [bar] ++ ascii "t:1" ++ [bar] ++ ascii "hello")) rfl⟩

/-- Counterexample to C4 as stated: when the TCP frame emission fails
after a CLAIM_ACK bound channel 0 of a registered session, the
channel-id binding IS removed (the session no longer appears in
channelMap), contrary to the claim that only the socket is closed and
the binding kept. -/
theorem emit_failure_unbind_counterexample :
    lookupA (ascii "a") (handleClaimAck poolA 0 (ascii "a") false).1.channelMap = none ∧
    5 ∈ (handleClaimAck poolA 0 (ascii "a") false).1.closedConns := by
  decide

/-- C4 amended: when the emission of the TCP frame fails after a
CLAIM_ACK has bound a channel, the session's local TCP socket is
closed and the whole session state, the channel-id binding included,
is removed (tcpMap, channelMap, connInfo, claimTimes); a later
CLAIM_ACK for the same id arriving on any channel is then discarded
without binding and without state change. -/
theorem emit_failure_cleanup (s : PoolState) (id : Bytes) (info : ConnInfo) (c ch : Nat)
    (hreg : lookupA id s.connInfo = some info)
    (hunb : lookupA id s.channelMap = none)
    (htcp : lookupA id s.tcpMap = some c) :
    c ∈ (handleClaimAck s ch id false).1.closedConns ∧
    lookupA id (handleClaimAck s ch id false).1.tcpMap = none ∧
    lookupA id (handleClaimAck s ch id false).1.channelMap = none ∧
    lookupA id (handleClaimAck s ch id false).1.connInfo = none ∧
    lookupA id (handleClaimAck s ch id false).1.claimTimes = none ∧
    (∀ ch' ok', handleClaimAck (handleClaimAck s ch id false).1 ch' id ok' =
      ((handleClaimAck s ch id false).1, none)) := by
  refine ⟨?_, ?_, ?_, ?_, ?_, handleClaimAck_after_first s ch id false info hreg hunb⟩ <;>
    simp [handleClaimAck, hreg, hunb, htcp, lookupA_eraseA_self]

/-- Witness for C4 amended at the concrete registered session of poolA
with an emit failure on channel 2. -/
theorem emit_failure_cleanup_witness :
    5 ∈ (handleClaimAck poolA 2 (ascii "a") false).1.closedConns ∧
    lookupA (ascii "a") (handleClaimAck poolA 2 (ascii "a") false).1.tcpMap = none ∧
    lookupA (ascii "a") (handleClaimAck poolA 2 (ascii "a") false).1.channelMap = none ∧
    lookupA (ascii "a") (handleClaimAck poolA 2 (ascii "a") false).1.connInfo = none ∧
    lookupA (ascii "a") (handleClaimAck poolA 2 (ascii "a") false).1.claimTimes = none ∧
    (∀ ch' ok', handleClaimAck (handleClaimAck poolA 2 (ascii "a") false).1 ch' (ascii "a") ok' =
      ((handleClaimAck poolA 2 (ascii "a") false).1, none)) :=
  emit_failure_cleanup poolA (ascii "a") ⟨ascii "t:1", ascii "hello"⟩ 5 2
    (by decide) (by decide) (by decide)

/-- Counterexample to C5 as stated: an ERROR frame neither closes the
session's local socket nor removes the session; handling it leaves the
state unchanged while the session stays in tcpMap and nothing is
closed. -/
theorem error_frame_noop_counterexample :
    handleTextMessage poolB 0 (ascii "ERROR:boom") true = (poolB, none) ∧
    lookupA (ascii "a") poolB.tcpMap = some 7 ∧
    poolB.closedConns = [] := by
  decide

/-- C5 amended: on a CLOSE frame for a session the local socket is
closed and the session is removed from tcpMap, channelMap, connInfo
and claimTimes; an ERROR frame is only logged and changes no state. -/
theorem close_frame_cleanup (s : PoolState) (ch : Nat) (id rest : Bytes) (c : Nat) (ok : Bool)
    (htcp : lookupA id s.tcpMap = some c) :
    c ∈ (handleTextMessage s ch (ascii "CLOSE:" ++ id) ok).1.closedConns ∧
    lookupA id (handleTextMessage s ch (ascii "CLOSE:" ++ id) ok).1.tcpMap = none ∧
    lookupA id (handleTextMessage s ch (ascii "CLOSE:" ++ id) ok).1.channelMap = none ∧
    lookupA id (handleTextMessage s ch (ascii "CLOSE:" ++ id) ok).1.connInfo = none ∧
    lookupA id (handleTextMessage s ch (ascii "CLOSE:" ++ id) ok).1.claimTimes = none ∧
    handleTextMessage s ch (ascii "ERROR:" ++ rest) ok = (s, none) := by
  have hmsg : handleTextMessage s ch (ascii "CLOSE:" ++ id) ok =
      (handleCloseMsg s ch id, none) := rfl
  have herr : handleTextMessage s ch (ascii "ERROR:" ++ rest) ok = (s, none) := rfl
  refine ⟨?_, ?_, ?_, ?_, ?_, herr⟩ <;>
    rw [hmsg] <;> simp [handleCloseMsg, htcp, lookupA_eraseA_self]

/-- Witness for C5 amended at the concrete bound session of poolB. -/
theorem close_frame_cleanup_witness :
    7 ∈ (handleTextMessage poolB 0 (ascii "CLOSE:" ++ ascii "a") true).1.closedConns ∧
    lookupA (ascii "a")
      (handleTextMessage poolB 0 (ascii "CLOSE:" ++ ascii "a") true).1.tcpMap = none ∧
    lookupA (ascii "a")
      (handleTextMessage poolB 0 (ascii "CLOSE:" ++ ascii "a") true).1.channelMap = none ∧
    lookupA (ascii "a")
      (handleTextMessage poolB 0 (ascii "CLOSE:" ++ ascii "a") true).1.connInfo = none ∧
    lookupA (ascii "a")
      (handleTextMessage poolB 0 (ascii "CLOSE:" ++ ascii "a") true).1.claimTimes = none ∧
    handleTextMessage poolB 0 (ascii "ERROR:" ++ ascii "z") true = (poolB, none) :=
  close_frame_cleanup poolB 0 (ascii "a") (ascii "z") 7 true (by decide)

/-- Counterexample to C9 as stated: with one live channel whose write
fails, SendUDPConnect returns an error even though a channel is live,
so returning an error is not equivalent to no channel being live. -/
theorem sendUDPConnect_error_live_counterexample :
    (SendUDPConnect poolC (ascii "a") (ascii "t:1")).errored = true ∧
    findFirstLive poolC.wsConns ≠ none := by
  decide

/-- C9 amended: SendUDPConnect selects the live channel with the
lowest index, records it as the session's bound channel, emits
UDP_CONNECT:<id>|<target> on it as a text frame, and returns an error
when no channel is live; when a channel is live it returns an error
exactly when the write on that channel fails. -/
theorem sendUDPConnect_spec (s : PoolState) (id target : Bytes) :
    (findFirstLive s.wsConns = none → SendUDPConnect s id target = ⟨s, none, true⟩) ∧
    (∀ ch t, findFirstLive s.wsConns = some (ch, t) →
      s.wsConns[ch]? = some (some t) ∧
      (∀ j, j < ch → s.wsConns[j]? = some none) ∧
      lookupA id (SendUDPConnect s id target).state.channelMap = some ch ∧
      lookupA ch (SendUDPConnect s id target).state.boundByChannel = some id ∧
      (SendUDPConnect s id target).sent =
        some (ch, ⟨.text, ascii "UDP_CONNECT:" ++ id ++ [bar] ++ target⟩) ∧
      (SendUDPConnect s id target).errored = !t.writeOk) := by
  constructor
  · intro h
    simp [SendUDPConnect, h]
  · intro ch t h
    obtain ⟨g1, g2⟩ := findFirstLive_spec s.wsConns ch t h
    refine ⟨g1, g2, ?_, ?_, ?_, ?_⟩ <;>
      simp [SendUDPConnect, h, lookupA_insertA_self]

/-- Witness for C9 amended at poolB, whose channel 0 is live with a
succeeding write. -/
theorem sendUDPConnect_spec_witness :
    poolB.wsConns[0]? = some (some (Transport.mk true)) ∧
    (∀ j, j < 0 → poolB.wsConns[j]? = some none) ∧
    lookupA (ascii "u")
      (SendUDPConnect poolB (ascii "u") (ascii "t:1")).state.channelMap = some 0 ∧
    lookupA 0
      (SendUDPConnect poolB (ascii "u") (ascii "t:1")).state.boundByChannel =
        some (ascii "u") ∧
    (SendUDPConnect poolB (ascii "u") (ascii "t:1")).sent =
      some (0, ⟨.text, ascii "UDP_CONNECT:" ++ ascii "u" ++ [bar] ++ ascii "t:1"⟩) ∧
    (SendUDPConnect poolB (ascii "u") (ascii "t:1")).errored = !(Transport.mk true).writeOk :=
  (sendUDPConnect_spec poolB (ascii "u") (ascii "t:1")).2 0 (Transport.mk true) rfl

example : ascii "ERROR:" = [69, 82, 82, 79, 82, 58] := rfl

example : splitN bar 2 (ascii "abc" ++ [bar] ++ ascii "d|e") =
    [ascii "abc", ascii "d|e"] := rfl

example : hasPrefixB (ascii "CLAIM_ACK:") (ascii "CLAIM_ACK:x|0") = true := rfl
